import Mathlib

/-
Verification of the KThreadPool header (kthreadpool.hpp): the pool's
queue discipline and lifecycle, and the two parallel-iteration
algorithms `Iterate` and `IterateWeighted` with their element
dispatcher `IterCallback`.

Machine integers are modelled as follows: C++ `int` becomes `Int`
with explicit two's-complement wrapping at each conversion point,
`size_t` becomes `Nat` (conversions wrap modulo 2 ^ 64).  The `double`
weights of `IterateWeighted` are modelled as rationals; every concrete
input evaluated below uses small integer weights, on which IEEE
double arithmetic is exact and agrees with the rational model.
-/

set_option autoImplicit false

namespace KThreadPool

/-- Conversion of a C++ `int` value to `size_t`, as performed by the
comparison `poolSize > elementCount`: reduction modulo 2 ^ 64, so a
negative `int` becomes a huge unsigned value. -/
def intToSizeT (x : Int) : Nat :=
  (x % (2 : Int) ^ 64).toNat

/-- Conversion of a `size_t` value to `int`, as performed by the cast
`(int)elementCount`: two's-complement wrap at 32 bits. -/
def sizeTToInt (n : Nat) : Int :=
  (((n + 2 ^ 31) % 2 ^ 32 : Nat) : Int) - 2 ^ 31

/-- Embeds the two clamping lines shared by `Iterate` (lines 250-251)
and `IterateWeighted` (lines 293-294):
`if (poolSize == 0) poolSize = GetCpuCoreCount();`
`if (poolSize > elementCount) poolSize = (int)elementCount;`
The `>` compares an `int` against a `size_t`, so the `int` operand is
converted to `size_t` first.  `coreCount` stands for the external
query `GetCpuCoreCount()`. -/
def resolvePoolSize (poolSize : Int) (elementCount coreCount : Nat) : Int :=
  let ps := if poolSize = 0 then (coreCount : Int) else poolSize
  if intToSizeT ps > elementCount then sizeTToInt elementCount else ps

/-- Embeds the worker-count resolution of the `KThreadPool`
constructor (lines 125-132):
`if (count == 0) count = DefaultThreadCount == 0 ? GetCpuCoreCount() : DefaultThreadCount;`
`if (count <= 0) count = 1;`
The result is the number of threads the constructor spawns. -/
def constructorThreadCount (count defaultThreadCount : Int) (coreCount : Nat) : Int :=
  let c := if count = 0 then
             (if defaultThreadCount = 0 then (coreCount : Int) else defaultThreadCount)
           else count
  if c ≤ 0 then 1 else c

/-- Number of threads of the ephemeral pool built by `Iterate` and
`IterateWeighted`: the clamped pool size fed to the constructor. -/
def effectiveWorkerCount (poolSize : Int) (elementCount coreCount : Nat)
    (defaultThreadCount : Int) : Int :=
  constructorThreadCount (resolvePoolSize poolSize elementCount coreCount)
    defaultThreadCount coreCount

/-- State of the job queue shared by the workers of one pool:
the pending-job list and the atomic `ActiveJobCount`. -/
structure QueueState (J : Type) where
  PendingJobs : List J
  ActiveJobCount : Nat
deriving DecidableEq

/-- Embeds `AddJobToPool` (lines 183-187): append the job at the end
of `PendingJobs` under the queue mutex. -/
def AddJobToPool {J : Type} (pending : List J) (job : J) : List J :=
  pending ++ [job]

/-- Embeds the claiming step of `TakeNewJob` (lines 193-203): if the
pending list is non-empty, remove and return its last element and
increment `ActiveJobCount` under the same lock; otherwise return
nothing and leave the state unchanged. -/
def TakeNewJob {J : Type} (s : QueueState J) : Option J × QueueState J :=
  match s.PendingJobs.getLast? with
  | none => (none, s)
  | some job => (some job, ⟨s.PendingJobs.dropLast, s.ActiveJobCount + 1⟩)

/-- Order in which a single worker with no concurrent consumers
executes the queued jobs: repeatedly take the last pending job. -/
def drainOrder {J : Type} : List J → List J
  | [] => []
  | x :: xs => (x :: xs).getLast (List.cons_ne_nil x xs) :: drainOrder (x :: xs).dropLast
termination_by l => l.length
decreasing_by simp [List.dropLast]

/-- Embeds the loop condition of `WaitForFinish` (line 224):
`while (GetPendingJobCount() > 0 || ActiveJobCount > 0) {}`. -/
def waitCondition (pending active : Nat) : Bool :=
  decide (pending > 0) || decide (active > 0)

/-- Run of the `WaitForFinish` spin loop over a finite trace of
observed `(pending, active)` pairs: while the condition holds, move to
the next observation; when it fails, return the observation at which
the loop exited; `none` when the trace ends with the loop still
spinning. -/
def WaitForFinish_exitObs : List (Nat × Nat) → Option (Nat × Nat)
  | [] => none
  | pa :: rest => if waitCondition pa.1 pa.2 then WaitForFinish_exitObs rest else some pa

/-- A job built by `Iterate` (line 256): it carries the element index
it will dispatch and the `bDeleteOnFinish` flag passed to the
`ThreadJob(bool, Functor, TArgs...)` constructor. -/
structure IterJob where
  index : Nat
  bDeleteOnFinish : Bool
deriving DecidableEq

/-- Embeds the job-building loop of `Iterate` (lines 254-257): for
each `i` in `[0, elementCount)`, push `Job(false, iterCallback, &pool,
func, data, i, args...)`; only the index and the ownership flag are
relevant to the claims. -/
def Iterate_buildJobs (elementCount : Nat) : List IterJob :=
  (List.range elementCount).map (fun i => ⟨i, false⟩)

/-- Indices at which `Iterate` invokes `IterCallback`: each created
job, once executed, dispatches the callback at its index exactly once
(line 238); the ephemeral pool's destructor blocks until every queued
job has run. -/
def Iterate_invocations (elementCount : Nat) : List Nat :=
  (Iterate_buildJobs elementCount).map IterJob.index

/-- Embeds `struct IterSection { size_t Start, End; }` (lines 20-23). -/
structure IterSection where
  Start : Nat
  End : Nat
deriving DecidableEq

/-- Mutable state of the greedy scan of `IterateWeighted`
(lines 301-303): the weight accumulated in the current range, the next
section slot to fill, the start index of the current range, and the
section array (value-initialised to `{0, 0}` entries). -/
structure ScanState where
  accumWeight : ℚ
  sectionIndex : Nat
  newStart : Nat
  sections : List IterSection
deriving DecidableEq

/-- Embeds one iteration of the scan loop of `IterateWeighted`
(lines 304-328) at index `i` with element weight `objWeight`.  A write
`sections[sectionIndex]` with `sectionIndex` out of range is undefined
in C++ and modelled as a no-op (`List.set`); all inputs evaluated
below stay in range. -/
def IterateWeighted_scanStep (elementCount : Nat) (targetWeight : ℚ)
    (st : ScanState) (i : Nat) (objWeight : ℚ) : ScanState :=
  if i < elementCount - 1 ∧ st.accumWeight + objWeight ≤ targetWeight then
    { st with accumWeight := st.accumWeight + objWeight }
  else
    { accumWeight := 0
      sectionIndex := st.sectionIndex + 1
      newStart := i + 1
      sections := st.sections.set st.sectionIndex ⟨st.newStart, i⟩ }

/-- Embeds the partitioning phase of `IterateWeighted`
(lines 283-328) for a pool with `threadCount` worker threads:
`total` is the sum of all element weights, `targetWeight` is
`total / pool.Threads.size()`, the section array has one
value-initialised slot per thread, and the scan visits the elements
left to right. -/
def IterateWeighted_scan (weights : List ℚ) (threadCount : Nat) : List IterSection :=
  let elementCount := weights.length
  let total := weights.sum
  let targetWeight := total / (threadCount : ℚ)
  let init : ScanState := ⟨0, 0, 0, List.replicate threadCount ⟨0, 0⟩⟩
  (weights.enum.foldl
    (fun st p => IterateWeighted_scanStep elementCount targetWeight st p.1 p.2)
    init).sections

/-- A job submitted by `IterateWeighted` (line 340): it carries its
section and the `bDeleteOnFinish` flag of the `ThreadJob` that
`AddFunctionToPool` allocates. -/
structure SectionJob where
  sec : IterSection
  bDeleteOnFinish : Bool
deriving DecidableEq

/-- Embeds `AddFunctionToPool` (lines 177-181) applied to one section
job: `new ThreadJob(func, args...)` uses the `ThreadJob(Functor,
TArgs...)` constructor, so `bDeleteOnFinish` keeps its in-class
default `true` (line 52). -/
def AddFunctionToPool_sectionJob (s : IterSection) : SectionJob :=
  ⟨s, true⟩

/-- Embeds the submission loop of `IterateWeighted` (lines 338-341):
one job per section, each through `AddFunctionToPool`. -/
def IterateWeighted_jobs (weights : List ℚ) (threadCount : Nat) : List SectionJob :=
  (IterateWeighted_scan weights threadCount).map AddFunctionToPool_sectionJob

/-- Indices at which `IterateWeighted` invokes `IterCallback`: the
`iterSection` lambda (lines 330-336) loops `i` over `[Start, End)` of
its section. -/
def IterateWeighted_invocations (weights : List ℚ) (threadCount : Nat) : List Nat :=
  (IterateWeighted_scan weights threadCount).flatMap
    (fun s => List.range' s.Start (s.End - s.Start))

/-- Number of calls `IterateWeighted` makes to the weight function:
once per element in the total-weight loop (lines 285-291) and once per
element in the scan loop (lines 306-311). -/
def IterateWeighted_weightCalls (weights : List ℚ) : Nat :=
  weights.length + weights.length

/-- The three invocation shapes `IterCallback` can select
(lines 344-365). -/
inductive CallShape where
  | elemIdxSeq
  | elemIdx
  | elemOnly
deriving DecidableEq

/-- An argument value handed to the user callback: a pointer value, an
index, or one of the extra forwarded arguments. -/
inductive Arg where
  | addr (a : Nat)
  | idx (i : Nat)
  | extraArg (e : Nat)
deriving DecidableEq

/-- Embeds the non-pointer branch of `IterCallback` (lines 356-364):
the sequence lives at address `base`, so `&data[i]` is `base + i` and
the third argument of shape (a) is `data`, the sequence base pointer.
`a3` and `a2` are the `std::is_invocable` results for the
three-positional and two-positional shapes; the chain tries the most
specific shape first.  Extra forwarded arguments follow the positional
ones. -/
def IterCallback_value (a3 a2 : Bool) (base i : Nat) (extra : List Arg) :
    CallShape × List Arg :=
  if a3 then (.elemIdxSeq, [.addr (base + i), .idx i, .addr base] ++ extra)
  else if a2 then (.elemIdx, [.addr (base + i), .idx i] ++ extra)
  else (.elemOnly, [.addr (base + i)] ++ extra)

/-- Embeds the pointer branch of `IterCallback` (lines 347-354), taken
when the element type `T` is itself a pointer: the sequence stored at
address `base` holds the pointer values `data`, the element argument
is the value `data[i]`, and the third argument of shape (a) is
`*data`, the value of the first element. -/
def IterCallback_pointer (a3 a2 : Bool) (base : Nat) (data : List Nat) (i : Nat)
    (extra : List Arg) : CallShape × List Arg :=
  if a3 then (.elemIdxSeq, [.addr (data.getD i 0), .idx i, .addr (data.getD 0 0)] ++ extra)
  else if a2 then (.elemIdx, [.addr (data.getD i 0), .idx i] ++ extra)
  else (.elemOnly, [.addr (data.getD i 0)] ++ extra)

/-- Whether a callback with `std::is_invocable` results `a3`, `a2`
accepts a given shape; every callback reaching the final `else` is
assumed to accept the element-only shape (otherwise the call fails to
compile). -/
def acceptsShape (a3 a2 : Bool) : CallShape → Bool
  | .elemIdxSeq => a3
  | .elemIdx => a2
  | .elemOnly => true

/-- Specificity of a shape: shape (a) is the most specific, shape (c)
the least. -/
def shapeRank : CallShape → Nat
  | .elemIdxSeq => 3
  | .elemIdx => 2
  | .elemOnly => 1

/-- State of one pool relevant to destruction: the
`bDestroyingPool` flag and the pending-job list. -/
structure PoolState where
  bDestroyingPool : Bool
  PendingJobs : List Nat
deriving DecidableEq

/-- The transitions the code performs on `bDestroyingPool` and
`PendingJobs`: `AddJobToPool` appends a job (line 186), `TakeNewJob`
removes the last pending job when one exists (lines 199-200), and the
destructor sets `bDestroyingPool` (line 167).  No statement of the
source ever writes `false` to `bDestroyingPool` after construction. -/
inductive PoolStep : PoolState → PoolState → Prop
  | addJob (s : PoolState) (j : Nat) :
      PoolStep s ⟨s.bDestroyingPool, AddJobToPool s.PendingJobs j⟩
  | takeJob (s : PoolState) (h : s.PendingJobs ≠ []) :
      PoolStep s ⟨s.bDestroyingPool, s.PendingJobs.dropLast⟩
  | setDestroying (s : PoolState) :
      PoolStep s ⟨true, s.PendingJobs⟩

/-- Outcome of one pass through the body of the worker loop
`waitForJob` (lines 136-157). -/
inductive WorkerAction where
  | executedJob
  | idleSpin
  | exitThread
deriving DecidableEq

/-- Embeds the body of `waitForJob`: `tookNew = pool->TakeNewJob()`
succeeds exactly when a pending job existed; on failure the worker
returns when `IsPendingDestroy()` holds and otherwise rests and
retries. -/
def workerLoopStep (s : PoolState) : WorkerAction :=
  if s.PendingJobs ≠ [] then .executedJob
  else if s.bDestroyingPool = false then .idleSpin
  else .exitThread

/-- An action of the destructor `~KThreadPool` (lines 165-170). -/
inductive DestructorAction where
  | setDestroyFlag
  | joinThread (i : Nat)
deriving DecidableEq

/-- Embeds the destructor: first `bDestroyingPool = true`, then join
each of the `threadCount` worker threads in order. -/
def destructorTrace (threadCount : Nat) : List DestructorAction :=
  DestructorAction.setDestroyFlag ::
    (List.range threadCount).map DestructorAction.joinThread

/-- The job list built by `Iterate` visits exactly the indices
`0, ..., elementCount - 1` in order. -/
theorem Iterate_invocations_eq_range (L : Nat) :
    Iterate_invocations L = List.range L := by
  simp [Iterate_invocations, Iterate_buildJobs, List.map_map]
  exact List.map_id _

/-- C2: for every sequence length L, `Iterate` dispatches the callback
exactly once per index in [0, L): the jobs it builds carry each index
exactly once, and for L = 0 it builds no jobs and performs no
invocations. -/
theorem Iterate_invokes_callback_once (L i : Nat) :
    (Iterate_invocations L).count i = (if i < L then 1 else 0)
    ∧ Iterate_invocations 0 = [] := by
  refine ⟨?_, rfl⟩
  rw [Iterate_invocations_eq_range]
  by_cases hi : i < L
  · simp [hi, List.count_eq_one_of_mem (List.nodup_range L) (List.mem_range.mpr hi)]
  · have hnm : i ∉ List.range L := by simpa [List.mem_range] using hi
    simp [hi, List.count_eq_zero_of_not_mem hnm]

/-- C1: evaluation at the failing input elementCount = 1, requested
pool size 1, weight constantly 1 (host core count 8).  The effective
worker count is 1 = min(W, L) as the claim states, but the single
emitted range is [0, 0): index 0 lies in no range, the ranges do not
cover [0, 1), and element 0 is never dispatched.  The greedy scan of
`IterateWeighted` closes a section with `End = i` yet starts the next
section at `i + 1`, so every section-closing index — including the
last index, which always closes a section — is dropped from all
ranges. -/
theorem IterateWeighted_skips_boundary_element :
    effectiveWorkerCount 1 1 8 0 = 1
    ∧ IterateWeighted_scan [1] 1 = [⟨0, 0⟩]
    ∧ IterateWeighted_invocations [1] 1 = []
    ∧ (0 : Nat) ∉ IterateWeighted_invocations [1] 1 := by
  decide

/-- C3 counterexample: with requested worker count W = 1 > 0 and an
empty sequence (L = 0, host core count 4) the clamp sets the pool size
to 0, which the constructor replaces by the core count, so the
ephemeral pool spawns 4 threads — exceeding min(W, L) = 0. -/
theorem effectiveWorkerCount_empty_sequence_cex :
    effectiveWorkerCount 1 0 4 0 = 4
    ∧ ¬ (effectiveWorkerCount 1 0 4 0 ≤ min 1 0) := by
  decide

/-- C3 as amended: for L > 0 (and representable magnitudes) the
effective worker count equals min(W, L) when W > 0, equals
min(coreCount, L) when W = 0 with the default thread count unset, and
is always at least 1. -/
theorem effectiveWorkerCount_clamped (W : Int) (L C : Nat) (hL : 0 < L)
    (hL31 : (L : Int) < 2 ^ 31) (hC : 0 < C) (hC31 : (C : Int) < 2 ^ 31)
    (hWlo : -2 ^ 31 ≤ W) (hWhi : W < 2 ^ 31) :
    (0 < W → effectiveWorkerCount W L C 0 = min W (L : Int))
    ∧ (W = 0 → effectiveWorkerCount W L C 0 = min (C : Int) (L : Int))
    ∧ 1 ≤ effectiveWorkerCount W L C 0 := by
  simp only [effectiveWorkerCount, resolvePoolSize, constructorThreadCount,
    intToSizeT, sizeTToInt]
  refine ⟨fun h => ?_, fun h => ?_, ?_⟩ <;> split_ifs <;> omega

/-- Witness for the amended C3 at W = 2, 0 and -1 with L = 3,
coreCount = 4. -/
theorem effectiveWorkerCount_clamped_witness :
    effectiveWorkerCount 2 3 4 0 = min 2 (3 : Int)
    ∧ effectiveWorkerCount 0 3 4 0 = min (4 : Int) (3 : Int)
    ∧ 1 ≤ effectiveWorkerCount (-1) 3 4 0 :=
  ⟨(effectiveWorkerCount_clamped 2 3 4 (by decide) (by decide) (by decide) (by decide)
      (by decide) (by decide)).1 (by decide),
   (effectiveWorkerCount_clamped 0 3 4 (by decide) (by decide) (by decide) (by decide)
      (by decide) (by decide)).2.1 rfl,
   (effectiveWorkerCount_clamped (-1) 3 4 (by decide) (by decide) (by decide) (by decide)
      (by decide) (by decide)).2.2⟩

/-- C9: a negative requested worker count is converted to a huge
unsigned value by the signed-unsigned comparison against the element
count, so it is clamped to the element count: for L > 0 the ephemeral
pool uses exactly L threads. -/
theorem negative_poolSize_clamps_to_elementCount (W : Int) (L C : Nat) (hL : 0 < L)
    (hL31 : (L : Int) < 2 ^ 31) (hWlo : -2 ^ 31 ≤ W) (hW : W < 0) :
    effectiveWorkerCount W L C 0 = (L : Int) := by
  simp only [effectiveWorkerCount, resolvePoolSize, constructorThreadCount,
    intToSizeT, sizeTToInt]
  split_ifs <;> omega

/-- Witness for C9 at W = -1, L = 3, coreCount = 4. -/
theorem negative_poolSize_witness :
    effectiveWorkerCount (-1) 3 4 0 = ((3 : Nat) : Int) :=
  negative_poolSize_clamps_to_elementCount (-1) 3 4 (by decide) (by decide)
    (by decide) (by decide)

/-- C10: `IterateWeighted` on an empty sequence makes zero calls to
the weight function (both per-element loops run zero times) and
dispatches the callback at no index, whatever the thread count of the
ephemeral pool: every value-initialised section is the empty range
[0, 0). -/
theorem IterateWeighted_empty_sequence (n : Nat) :
    IterateWeighted_weightCalls [] = 0
    ∧ IterateWeighted_invocations [] n = [] := by
  refine ⟨rfl, ?_⟩
  simp [IterateWeighted_invocations, IterateWeighted_scan]

/-- C5 counterexample: at weights [1] with one worker,
`IterateWeighted` submits exactly one job through
`AddFunctionToPool`, and its `bDeleteOnFinish` flag is `true`, not
`false` as the claim states. -/
theorem IterateWeighted_jobs_autodelete_cex :
    (IterateWeighted_jobs [1] 1).map SectionJob.bDeleteOnFinish = [true]
    ∧ ¬ (∀ j ∈ IterateWeighted_jobs [1] 1, j.bDeleteOnFinish = false) := by
  decide

/-- C5 as amended: every job created by `IterateWeighted` is
auto-delete (`bDeleteOnFinish = true`, from the defaulted `ThreadJob`
constructor used by `AddFunctionToPool`), so it frees its own storage
after its single execution; the externally-owned batch pattern
(`bDeleteOnFinish = false`) is used by `Iterate`. -/
theorem iteration_jobs_ownership (weights : List ℚ) (n L : Nat) :
    (∀ j ∈ IterateWeighted_jobs weights n, j.bDeleteOnFinish = true)
    ∧ (∀ j ∈ Iterate_buildJobs L, j.bDeleteOnFinish = false) := by
  constructor
  · intro j hj
    simp only [IterateWeighted_jobs, List.mem_map] at hj
    obtain ⟨s, -, rfl⟩ := hj
    rfl
  · intro j hj
    simp only [Iterate_buildJobs, List.mem_map] at hj
    obtain ⟨k, -, rfl⟩ := hj
    rfl

/-- Witness for the amended C5 on the one-element input. -/
theorem iteration_jobs_ownership_witness :
    (AddFunctionToPool_sectionJob ⟨0, 0⟩).bDeleteOnFinish = true
    ∧ (IterJob.mk 0 false).bDeleteOnFinish = false :=
  ⟨(iteration_jobs_ownership [1] 1 1).1 (AddFunctionToPool_sectionJob ⟨0, 0⟩) (by decide),
   (iteration_jobs_ownership [1] 1 1).2 ⟨0, false⟩ (by decide)⟩

/-- C6: with no concurrent consumers, `TakeNewJob` removes and returns
the most recently enqueued job: after enqueuing A then B, the next
dequeue yields B and leaves A pending, and a single worker draining
the queue [A, B] executes B before A. -/
theorem TakeNewJob_lifo {J : Type} (q : List J) (A B : J) (a : Nat) :
    (TakeNewJob ⟨AddJobToPool (AddJobToPool q A) B, a⟩).1 = some B
    ∧ (TakeNewJob ⟨AddJobToPool (AddJobToPool q A) B, a⟩).2.PendingJobs
        = AddJobToPool q A
    ∧ drainOrder (AddJobToPool (AddJobToPool [] A) B) = [B, A] := by
  refine ⟨?_, ?_, ?_⟩ <;> simp [TakeNewJob, AddJobToPool, drainOrder]

/-- C7: the `WaitForFinish` spin loop exits only at an observation
where the pending-job count and the active-job count are both zero. -/
theorem WaitForFinish_returns_only_idle (obs : List (Nat × Nat)) (pa : Nat × Nat)
    (h : WaitForFinish_exitObs obs = some pa) :
    pa.1 = 0 ∧ pa.2 = 0 := by
  induction obs with
  | nil => simp [WaitForFinish_exitObs] at h
  | cons q rest ih =>
    by_cases hc : waitCondition q.1 q.2
    · exact ih (by simpa [WaitForFinish_exitObs, hc] using h)
    · have hq : q = pa := by simpa [WaitForFinish_exitObs, hc] using h
      subst hq
      simp [waitCondition] at hc
      omega

/-- Witness for C7: on the trace (1,0), (0,2), (0,0) the loop exits at
the third observation. -/
theorem WaitForFinish_returns_only_idle_witness :
    ((0, 0) : Nat × Nat).1 = 0 ∧ ((0, 0) : Nat × Nat).2 = 0 :=
  WaitForFinish_returns_only_idle [(1, 0), (0, 2), (0, 0)] (0, 0) (by decide)

/-- C8: the destroy flag is monotonic along every pool transition; a
worker pass returns (terminating the thread) only when its dequeue
found no pending job and the destroy flag is set; and the destructor
trace sets the flag first and then joins every worker thread. -/
theorem destroy_lifecycle :
    (∀ s t : PoolState, PoolStep s t → s.bDestroyingPool = true → t.bDestroyingPool = true)
    ∧ (∀ s : PoolState, workerLoopStep s = WorkerAction.exitThread →
        s.PendingJobs = [] ∧ s.bDestroyingPool = true)
    ∧ (∀ n : Nat, (destructorTrace n)[0]? = some DestructorAction.setDestroyFlag
        ∧ ∀ i, i < n →
            (destructorTrace n)[i + 1]? = some (DestructorAction.joinThread i)) := by
  refine ⟨?_, ?_, ?_⟩
  · intro s t hst h
    cases hst <;> simp_all
  · intro s h
    unfold workerLoopStep at h
    split_ifs at h with h1 h2
    exact ⟨not_ne_iff.mp h1, by simpa using h2⟩
  · intro n
    constructor
    · simp [destructorTrace]
    · intro i hi
      simp [destructorTrace, hi]

/-- Witness for C8: a concrete enqueue step from a destroying state, a
concrete exiting worker pass, and the placement of the first join in
the destructor trace of a two-thread pool. -/
theorem destroy_lifecycle_witness :
    (PoolState.mk true (AddJobToPool [] 5)).bDestroyingPool = true
    ∧ ((PoolState.mk true []).PendingJobs = []
        ∧ (PoolState.mk true []).bDestroyingPool = true)
    ∧ (destructorTrace 2)[0 + 1]? = some (DestructorAction.joinThread 0) :=
  ⟨destroy_lifecycle.1 ⟨true, []⟩ ⟨true, AddJobToPool [] 5⟩
      (PoolStep.addJob ⟨true, []⟩ 5) rfl,
   destroy_lifecycle.2.1 ⟨true, []⟩ (by decide),
   (destroy_lifecycle.2.2 2).2 0 (by decide)⟩

/-- C4 counterexample: in the pointer-element branch, for the sequence
of pointer values [42, 7] stored at base address 100, shape (a) passes
as third argument the value of the first element (`*data`, here the
pointer 42) and not the sequence base pointer 100. -/
theorem IterCallback_third_argument_cex :
    (IterCallback_pointer true true 100 [42, 7] 1 []).2[2]? = some (Arg.addr 42)
    ∧ Arg.addr 42 ≠ Arg.addr 100 := by
  decide

/-- C4 as amended: `IterCallback` selects the most specific shape the
callback accepts (same selection in both element-type branches), extra
forwarded arguments are appended after the positional ones in every
shape, and in shape (a) the third argument is the whole-sequence base
pointer when elements are non-pointer values but the value of the
first element (`*data`) when the elements are themselves pointers. -/
theorem IterCallback_dispatch (a3 a2 : Bool) (base i : Nat) (data : List Nat)
    (extra : List Arg) :
    (acceptsShape a3 a2 (IterCallback_value a3 a2 base i extra).1 = true
      ∧ ∀ s, acceptsShape a3 a2 s = true →
          shapeRank s ≤ shapeRank (IterCallback_value a3 a2 base i extra).1)
    ∧ (IterCallback_value a3 a2 base i extra).2
        = (IterCallback_value a3 a2 base i []).2 ++ extra
    ∧ (IterCallback_pointer a3 a2 base data i extra).1
        = (IterCallback_value a3 a2 base i extra).1
    ∧ (IterCallback_pointer a3 a2 base data i extra).2
        = (IterCallback_pointer a3 a2 base data i []).2 ++ extra
    ∧ (IterCallback_value true a2 base i extra).2[2]? = some (Arg.addr base)
    ∧ (IterCallback_pointer true a2 base data i extra).2[2]?
        = some (Arg.addr (data.getD 0 0)) := by
  cases a3 <;> cases a2 <;>
    refine ⟨⟨by simp [acceptsShape, IterCallback_value], fun s hs => ?_⟩,
      by simp [IterCallback_value],
      by simp [IterCallback_pointer, IterCallback_value],
      by simp [IterCallback_pointer],
      by simp [IterCallback_value],
      by simp [IterCallback_pointer]⟩ <;>
  cases s <;> simp_all [acceptsShape, shapeRank, IterCallback_value]

/-- Witness for the amended C4: the two-positional shape is accepted
at a3 = false, a2 = true and is indeed ranked highest among the
accepted shapes there. -/
theorem IterCallback_dispatch_witness :
    shapeRank CallShape.elemIdx ≤ shapeRank (IterCallback_value false true 5 0 []).1 :=
  (IterCallback_dispatch false true 5 0 [] []).1.2 CallShape.elemIdx (by decide)

end KThreadPool
